import Mathlib

/-!
Verification of the towel toolkit: a shallow embedding of the generic
read-only data API (content negotiation, pagination, set lookups, write
handler, URL reversal), the tenant-scoped form field filtering, the
LogEntry audit model, and the resource views (list, delete, batch
actions), together with theorems settling the specification claims.
-/

set_option maxRecDepth 2000

namespace Api

/-- Modelled from the spec: the configured page size used as the default
`limit` of a collection request (towel.api collection handler is not in
the sources; its tests expect 20). -/
def page_size : Nat := 20

/-- Pagination metadata of a collection document: the `meta` map carries
exactly the keys limit, offset, total, next and previous; `next` and
`previous` hold the offset of the adjacent page, or none when that page
would be out of range. -/
structure ListMeta where
  limit : Nat
  offset : Nat
  total : Nat
  next : Option Nat
  previous : Option Nat
deriving Repr, DecidableEq

/-- A collection document: an `objects` sequence (primary keys of the
serialized rows) and an optional `meta` map. Collection GETs always carry
`meta`; set lookups never do. -/
structure CollectionDoc where
  objects : List Nat
  meta : Option ListMeta
deriving Repr, DecidableEq

/-- Modelled from the spec: the `meta` map computed for a collection GET.
Offset defaults to 0, limit defaults to the configured page size; next is
the offset of the following page when it is still in range, previous is
the offset of the preceding page, none when the request already starts at
offset 0. -/
def collection_meta (qs : List Nat) (offsetParam limitParam : Option Nat) : ListMeta :=
  let offset := offsetParam.getD 0
  let limit := limitParam.getD page_size
  let total := qs.length
  { limit := limit
    offset := offset
    total := total
    next := if offset + limit < total then some (offset + limit) else none
    previous := if offset = 0 then none else some (offset - limit) }

/-- Modelled from the spec: `serialize_collection` resolves a list
endpoint into a paginated document with an `objects` sequence (the
requested slice of the query set) and a `meta` map. A limit larger than
the remaining rows simply returns all of them. -/
def serialize_collection (qs : List Nat) (offsetParam limitParam : Option Nat) : CollectionDoc :=
  { objects := (qs.drop (offsetParam.getD 0)).take (limitParam.getD page_size)
    meta := some (collection_meta qs offsetParam limitParam) }

/-- Error document of the API: an HTTP status and the `error` message. -/
structure ApiError where
  status : Nat
  error : String
deriving Repr, DecidableEq

/-- Modelled from the spec: generic message of a failed all-or-nothing
set lookup. -/
def some_objects_msg : String := "Some objects do not exist."

/-- Modelled from the spec: model-specific message of a failed single
primary key lookup. -/
def detail_msg (modelName : String) : String :=
  "No " ++ modelName ++ " matches the given query."

/-- Modelled from the spec: semicolon-delimited set lookup. All
instances whose primary key is among the requested keys are fetched; if
fewer instances are found than keys were requested the whole request
fails with 404 and the generic message, otherwise the document carries
the objects and no pagination `meta`. -/
def set_lookup (db : List Nat) (pks : List Nat) : Except ApiError CollectionDoc :=
  let found := db.filter (fun pk => decide (pk ∈ pks))
  if found.length < pks.length then
    Except.error ⟨404, some_objects_msg⟩
  else
    Except.ok { objects := found, meta := none }

/-- A detail document: fixed metadata keys reduced to the primary key and
the canonical URI. -/
structure DetailDoc where
  __pk__ : Nat
  __uri__ : String
deriving Repr, DecidableEq

/-- Modelled from the spec: canonical detail URI of one instance. -/
def detail_uri (apiName resource : String) (pk : Nat) : String :=
  "/api/" ++ apiName ++ "/" ++ resource ++ "/" ++ Nat.repr pk ++ "/"

/-- Modelled from the spec: serialization of a single instance, reduced
to the metadata the claims inspect. -/
def serialize_instance (apiName resource : String) (pk : Nat) : DetailDoc :=
  ⟨pk, detail_uri apiName resource pk⟩

/-- Modelled from the spec: single primary key lookup; a missing key
fails with 404 and a message naming the model. -/
def detail_lookup (modelName : String) (apiName resource : String) (db : List Nat)
    (pk : Nat) : Except ApiError DetailDoc :=
  if pk ∈ db then Except.ok (serialize_instance apiName resource pk)
  else Except.error ⟨404, detail_msg modelName⟩

/-- Modelled from the spec: message of the form validation failure
summary. -/
def validation_failed_msg : String := "Validation failed"

/-- Modelled from the spec: per-field message for a missing required
field. -/
def required_msg : String := "This field is required."

/-- Model form description used by the write handler: the declared fields
and which of them are required. -/
structure FormSpec where
  fields : List String
  required : List String
deriving Repr

/-- Modelled from the spec: form validation of a decoded body. Every
required field that is absent from the body is keyed with the required
message; an empty error map means the body validates. -/
def validate (spec : FormSpec) (body : List (String × String)) : List (String × List String) :=
  (spec.required.filter (fun f => (body.lookup f).isNone)).map (fun f => (f, [required_msg]))

/-- Response of the write handler: either a 400 with the `error` summary
and the `form` error map, or a 201 with an empty body and a Location
header. -/
inductive PostResult where
  | badRequest (error : String) (form : List (String × List String))
  | created (body : String) (location : String)
deriving Repr, DecidableEq

/-- Modelled from the spec: the write handler. On a validation failure it
returns 400 and leaves the table unchanged; on success it persists
exactly one new row (fresh primary key) and returns 201 with an empty
body and a Location header equal to the new detail URI. -/
def create_post (spec : FormSpec) (apiName resource : String) (db : List Nat)
    (body : List (String × String)) : PostResult × List Nat :=
  let errors := validate spec body
  if errors.isEmpty then
    let pk := db.foldl max 0 + 1
    (PostResult.created "" (detail_uri apiName resource pk), db ++ [pk])
  else
    (PostResult.badRequest validation_failed_msg errors, db)

/-- Supported serialization formats of the API. -/
inductive SFormat where
  | json
  | xml
deriving Repr, DecidableEq

/-- Modelled from the spec: content negotiation on the Accept header;
selects the best-matching supported format from JSON and XML, none when
neither matches. -/
def negotiate (accept : String) : Option SFormat :=
  if accept = "application/json" then some SFormat.json
  else if accept = "application/xml" then some SFormat.xml
  else none

/-- Modelled from the spec: the request body content types the API can
decode. -/
def supported_body_types : List String :=
  ["application/x-www-form-urlencoded", "multipart/form-data", "application/json"]

/-- Modelled from the spec: decoding of a request body. Form-encoded and
JSON bodies decode into a mapping of field name to value (the concrete
decoders are passed in); any other content type fails with 415 before the
body is ever looked at. -/
def decode_body (parseForm parseJson : String → List (String × String))
    (contentType : String) (body : String) : Except Nat (List (String × String)) :=
  if contentType = "application/x-www-form-urlencoded" ∨ contentType = "multipart/form-data" then
    Except.ok (parseForm body)
  else if contentType = "application/json" then
    Except.ok (parseJson body)
  else
    Except.error 415

/-- Modelled from the spec: status code of a POST request as decided by
the negotiation pipeline: Accept is negotiated first (406 on failure),
then the body is decoded (415 on an unsupported content type), then the
write handler runs. -/
def post_status (parseForm parseJson : String → List (String × String))
    (spec : FormSpec) (accept contentType body : String) : Nat :=
  match negotiate accept with
  | none => 406
  | some _ =>
    match decode_body parseForm parseJson contentType body with
    | Except.error s => s
    | Except.ok decoded =>
      if (validate spec decoded).isEmpty then 201 else 400

/-- HTTP methods of the resource routing dispatch. -/
inductive Method where
  | GET
  | HEAD
  | POST
  | PUT
  | DELETE
  | OPTIONS
  | PATCH
deriving Repr, DecidableEq

/-- Name of a method as it appears in the Allow header. -/
def methodName : Method → String
  | Method.GET => "GET"
  | Method.HEAD => "HEAD"
  | Method.POST => "POST"
  | Method.PUT => "PUT"
  | Method.DELETE => "DELETE"
  | Method.OPTIONS => "OPTIONS"
  | Method.PATCH => "PATCH"

/-- An API endpoint together with the methods it supports. -/
structure Endpoint where
  allowed : List Method
deriving Repr

/-- Methods supported by a read-only collection endpoint. -/
def readonly_methods : List Method := [Method.GET, Method.HEAD, Method.OPTIONS]

/-- Allow header of an endpoint: its supported methods joined by a comma
and a space. -/
def allow_header (e : Endpoint) : String :=
  String.intercalate ", " (e.allowed.map methodName)

/-- Response of the method dispatch: a status code and an optional Allow
header. -/
structure MethodResp where
  status : Nat
  allow : Option String
deriving Repr, DecidableEq

/-- Modelled from the spec: method dispatch of an endpoint. OPTIONS
returns 200 with the Allow header; a supported method is handled (200
here); any unsupported method returns 405 with the same Allow header. -/
def dispatch (e : Endpoint) (m : Method) : MethodResp :=
  if m = Method.OPTIONS then ⟨200, some (allow_header e)⟩
  else if m ∈ e.allowed then ⟨200, none⟩
  else ⟨405, some (allow_header e)⟩

/-- Actions an API URL can be reversed for. -/
inductive ApiAction where
  | list
  | detail
  | set
deriving Repr, DecidableEq

/-- Keyword arguments of `api_reverse`: the primary key for a detail URI
and the semicolon-joined keys for a set URI. -/
structure ReverseKwargs where
  pk : Option Nat
  pks : Option String
deriving Repr

/-- One path segment of an API URI: a literal string segment or a numeric
primary key segment. -/
inductive Seg where
  | s (x : String)
  | n (x : Nat)
deriving Repr, DecidableEq

/-- Rendering of one path segment. -/
def segStr : Seg → String
  | Seg.s x => x
  | Seg.n x => Nat.repr x

/-- Rendering of a segment path as the canonical URI string: a leading
slash, every segment followed by a slash. -/
def uriOfSegs (segs : List Seg) : String :=
  segs.foldl (fun acc sg => acc ++ segStr sg ++ "/") "/"

/-- Modelled from the spec: `api_reverse` produces the canonical URI (as
a segment path) for the list, detail and set actions of a registered
resource, and fails (none) when the model was never registered or a
required keyword argument is missing. -/
def api_reverse (registry : List String) (apiName resource : String)
    (action : ApiAction) (kw : ReverseKwargs) : Option (List Seg) :=
  if resource ∈ registry then
    match action with
    | ApiAction.list => some [Seg.s "api", Seg.s apiName, Seg.s resource]
    | ApiAction.detail =>
      kw.pk.map (fun p => [Seg.s "api", Seg.s apiName, Seg.s resource, Seg.n p])
    | ApiAction.set =>
      kw.pks.map (fun ps => [Seg.s "api", Seg.s apiName, Seg.s resource, Seg.s ps])
  else none

/-- A resolved route: the resource, the action and the primary key of a
detail request. -/
structure Route where
  resource : String
  action : ApiAction
  pk : Option Nat
deriving Repr, DecidableEq

/-- Modelled from the spec: URL routing, resolving a segment path back
into the resource, action and primary key it addresses. A three-segment
path under the API prefix is a list request of a registered resource; a
fourth numeric segment selects a detail request, a fourth string segment
a set request. -/
def resolve (registry : List String) (apiName : String) : List Seg → Option Route
  | [Seg.s a, Seg.s v, Seg.s r] =>
    if a = "api" ∧ v = apiName ∧ r ∈ registry then some ⟨r, ApiAction.list, none⟩ else none
  | [Seg.s a, Seg.s v, Seg.s r, Seg.n p] =>
    if a = "api" ∧ v = apiName ∧ r ∈ registry then some ⟨r, ApiAction.detail, some p⟩ else none
  | [Seg.s a, Seg.s v, Seg.s r, Seg.s _] =>
    if a = "api" ∧ v = apiName ∧ r ∈ registry then some ⟨r, ApiAction.set, none⟩ else none
  | _ => none

end Api

namespace MT

/-- One form field as the tenant-scoped forms see it: its name and, when
the field has a queryset attribute, the model of that queryset together
with its rows (primary keys). A field without a queryset attribute
carries none. -/
structure FormField where
  name : String
  queryset : Option (String × List Nat)
deriving Repr, DecidableEq

/-- Modelled from the spec: towel.utils.safe_queryset_and combines two
query sets over the same model; behaviourally the intersection of their
rows. -/
def safe_queryset_and (a b : List Nat) : List Nat :=
  a.filter (fun x => b.contains x)

/-- The request as the tenant-scoped forms see it: forAccess applied to a
model name gives the rows of that model accessible under request.access
(modelled from the spec; the manager method for_access is not in the
sources). -/
structure MTRequest where
  forAccess : String → List Nat

/-- Embedding of towel.mt.forms._process_fields: every field with a
queryset attribute has its queryset replaced by
safe_queryset_and(queryset, model.objects.for_access(request.access));
fields without a queryset attribute are untouched. -/
def _process_fields (fields : List FormField) (request : MTRequest) : List FormField :=
  fields.map (fun f =>
    match f.queryset with
    | none => f
    | some (model, qs) =>
      { f with queryset := some (model, safe_queryset_and qs (request.forAccess model)) })

/-- A constructed form: its fields after initialization. -/
structure MTForm where
  fields : List FormField
deriving Repr, DecidableEq

/-- Embedding of towel.mt.forms.Form: the constructor pops the request
and runs _process_fields on the fields built by the base class. -/
def Form_init (fields : List FormField) (request : MTRequest) : MTForm :=
  ⟨_process_fields fields request⟩

/-- Embedding of towel.mt.forms.ModelForm: same construction as Form. -/
def ModelForm_init (fields : List FormField) (request : MTRequest) : MTForm :=
  ⟨_process_fields fields request⟩

/-- Embedding of towel.mt.forms.SearchForm.post_init: stores the request
and runs _process_fields on the already-constructed form. -/
def SearchForm_post_init (form : MTForm) (request : MTRequest) : MTForm :=
  ⟨_process_fields form.fields request⟩

/-- Embedding of towel.mt.forms.BatchForm: the constructor runs
_process_fields after the base initialization. -/
def BatchForm_init (fields : List FormField) (request : MTRequest) : MTForm :=
  ⟨_process_fields fields request⟩

end MT

namespace Logging

/-- Embedding of mooch.logging.models.LOG_SOURCES: the enumerated source
channel choices, stored value paired with display name. -/
def LOG_SOURCES : List (String × String) :=
  [("WEB", "Online"), ("EML", "Email"), ("SMS", "SMS"), ("MMS", "MMS")]

/-- Embedding of mooch.logging.models.LogEntry: owning user account,
owning project, free-text title and message, source channel and reported
timestamp. Foreign keys and timestamps are primary keys and ticks. -/
structure LogEntry where
  account : Nat
  project : Nat
  title : String
  message : String
  source : String
  reported : Nat
deriving Repr, DecidableEq

/-- A source value is valid when it is one of the stored values of the
enumerated choices. -/
def valid_source (s : String) : Bool :=
  (LOG_SOURCES.map Prod.fst).contains s

/-- Creation of a LogEntry: the reported timestamp defaults to the
creation time (datetime.now) when not supplied. -/
def LogEntry.create (now account project : Nat) (title message source : String)
    (reported : Option Nat) : LogEntry :=
  ⟨account, project, title, message, source, reported.getD now⟩

/-- Embedding of LogEntry.Meta.ordering. -/
def LogEntry.ordering : List String := ["-reported"]

/-- Descending-by-reported order, the reading of the "-reported" default
ordering. -/
def byReportedDesc (a b : LogEntry) : Prop := b.reported ≤ a.reported

instance : DecidableRel byReportedDesc := fun _ _ => Nat.decLe _ _

instance : IsTotal LogEntry byReportedDesc :=
  ⟨fun a b => Nat.le_total b.reported a.reported⟩

instance : IsTrans LogEntry byReportedDesc :=
  ⟨fun _ _ _ hab hbc => le_trans hbc hab⟩

/-- Application of the default ordering to a query result: sort by
descending reported time. -/
def apply_default_ordering (entries : List LogEntry) : List LogEntry :=
  List.insertionSort byReportedDesc entries

end Logging

namespace Resources

/-- A persisted object as the resource views see it: its primary key. -/
structure Obj where
  pk : Nat
deriving Repr, DecidableEq

/-- Verbose names of the model a view is configured for. -/
structure ViewConfig where
  verboseName : String
  verboseNamePlural : String
deriving Repr

/-- Message of allow_delete with silent=False and a concrete object. -/
def not_allowed_delete_this (cfg : ViewConfig) : String :=
  "You are not allowed to delete this " ++ cfg.verboseName ++ "."

/-- Message of allow_delete with silent=False and no object. -/
def not_allowed_delete_plural (cfg : ViewConfig) : String :=
  "You are not allowed to delete " ++ cfg.verboseNamePlural ++ "."

/-- Message of delete_selected when the allowed selection is empty. -/
def none_allowed_msg : String :=
  "You are not allowed to delete any object in the selection."

/-- Warning of delete_selected when only part of the selection is
allowed. -/
def some_excluded_msg : String :=
  "Deletion of some objects not allowed. Those have been excluded from the selection already."

/-- Success message of delete_selected and DeleteView.form_valid. -/
def deletion_successful_msg : String := "Deletion successful."

/-- Message of ListView.get when the search form is invalid. -/
def search_invalid_msg : String := "The search query was invalid."

/-- Embedding of ModelResourceView.allow_delete: always returns false;
with silent=False it also adds an error message naming the model, the
plural form when no object is given. The message list is the state of
the django messages framework. -/
def allow_delete (cfg : ViewConfig) (object : Option Obj) (silent : Bool)
    (msgs : List String) : Bool × List String :=
  (false,
   if silent then msgs
   else msgs ++ [match object with
     | none => not_allowed_delete_plural cfg
     | some _ => not_allowed_delete_this cfg])

/-- Responses the embedded resource views can produce. -/
inductive HttpResp where
  | redirectObj (pk : Nat)
  | redirectUrl (url : String)
  | renderList (objectList : List Obj)
  | renderConfirm (queryset : List Obj)
  | notFound
deriving Repr, DecidableEq

/-- Embedding of ListView.delete_selected: each selected item is kept
only when allow_delete permits it (it never does in the base class); an
empty remaining selection reports an error and returns without touching
the table; otherwise a partial exclusion warns, and the action either
asks for confirmation or deletes the remaining items. Returns the
optional direct response, the table and the messages. -/
def delete_selected (cfg : ViewConfig) (confirmInPost : Bool) (queryset : List Obj)
    (db : List Obj) (msgs : List String) : Option HttpResp × List Obj × List String :=
  let allowed := queryset.map (fun item => (allow_delete cfg (some item) true msgs).1)
  let qs2 := ((queryset.zip allowed).filter (fun p => p.2)).map Prod.fst
  if qs2.isEmpty then
    (none, db, msgs ++ [none_allowed_msg])
  else
    let msgs2 := if allowed.all (fun b => b) then msgs else msgs ++ [some_excluded_msg]
    if confirmInPost then
      (none, db.filter (fun o => !(qs2.any (fun q => q.pk == o.pk))),
       msgs2 ++ [deletion_successful_msg])
    else
      (some (HttpResp.renderConfirm qs2), db, msgs2)

/-- The request state ListView.get inspects: the search form (its
presence, validity and resulting query set) and the batch form (whether
it should process, the selection and the confirmation flag). -/
structure LVRequest where
  hasSearchForm : Bool
  searchValid : Bool
  searchPks : List Nat
  shouldProcess : Bool
  selectedPks : List Nat
  confirmInPost : Bool
deriving Repr

/-- Embedding of ListView.get: an invalid search form redirects to
clear; otherwise the object list is intersected with the search query
set, and when the batch form should process, the delete_selected action
runs on the selected part of the object list; a direct response from the
action is returned as is, and a finished action redirects to the list
URL. Without batch processing the list is rendered. -/
def ListView_get (cfg : ViewConfig) (rq : LVRequest) (db : List Obj)
    (msgs : List String) : HttpResp × List Obj × List String :=
  if rq.hasSearchForm && !rq.searchValid then
    (HttpResp.redirectUrl "?clear=1", db, msgs ++ [search_invalid_msg])
  else
    let object_list := if rq.hasSearchForm then
        db.filter (fun o => rq.searchPks.contains o.pk)
      else db
    if rq.shouldProcess then
      let batchQs := object_list.filter (fun o => rq.selectedPks.contains o.pk)
      match delete_selected cfg rq.confirmInPost batchQs db msgs with
      | (some resp, db2, msgs2) => (resp, db2, msgs2)
      | (none, db2, msgs2) => (HttpResp.redirectUrl "list", db2, msgs2)
    else
      (HttpResp.renderList object_list, db, msgs)

/-- Embedding of ListView.post: defined as a call to ListView.get, for
the batch action handling. -/
def ListView_post (cfg : ViewConfig) (rq : LVRequest) (db : List Obj)
    (msgs : List String) : HttpResp × List Obj × List String :=
  ListView_get cfg rq db msgs

/-- Embedding of DeleteView.get: look the object up (404 when missing),
ask allow_delete with silent=False, redirect to the object when not
allowed, render the confirmation page otherwise. -/
def DeleteView_get (cfg : ViewConfig) (db : List Obj) (pk : Nat)
    (msgs : List String) : HttpResp × List Obj × List String :=
  match db.find? (fun o => o.pk == pk) with
  | none => (HttpResp.notFound, db, msgs)
  | some o =>
    let r := allow_delete cfg (some o) false msgs
    if r.1 then
      (HttpResp.renderConfirm [o], db, r.2)
    else
      (HttpResp.redirectObj o.pk, db, r.2)

/-- Success message of DeleteView.form_valid. -/
def deleted_successfully_msg (cfg : ViewConfig) : String :=
  "The " ++ cfg.verboseName ++ " has been successfully deleted."

/-- Embedding of DeleteView.post: look the object up (404 when missing),
ask allow_delete with silent=False, redirect to the object when not
allowed; when allowed, the fieldless confirmation form always validates,
so form_valid deletes the object and redirects to the list URL. -/
def DeleteView_post (cfg : ViewConfig) (db : List Obj) (pk : Nat)
    (msgs : List String) : HttpResp × List Obj × List String :=
  match db.find? (fun o => o.pk == pk) with
  | none => (HttpResp.notFound, db, msgs)
  | some o =>
    let r := allow_delete cfg (some o) false msgs
    if r.1 then
      (HttpResp.redirectUrl "list", db.filter (fun x => !(x.pk == o.pk)),
       r.2 ++ [deleted_successfully_msg cfg])
    else
      (HttpResp.redirectObj o.pk, db, r.2)

end Resources

lemma delete_selected_noop (cfg : Resources.ViewConfig) (confirmInPost : Bool)
    (queryset db : List Resources.Obj) (msgs : List String) :
    Resources.delete_selected cfg confirmInPost queryset db msgs
      = (none, db, msgs ++ [Resources.none_allowed_msg]) := by
  have hz : ((queryset.zip (queryset.map (fun item =>
      (Resources.allow_delete cfg (some item) true msgs).1))).filter
        (fun p => p.2)).map Prod.fst = [] := by
    induction queryset with
    | nil => rfl
    | cons a t ih => simpa [Resources.allow_delete] using ih
  simp only [Resources.delete_selected, hz]
  rfl

/-- C10: ListView.post returns exactly the same response, table state and
messages as ListView.get on every request, table and message state. -/
theorem C10_list_post_equals_get :
    ∀ (cfg : Resources.ViewConfig) (rq : Resources.LVRequest)
      (db : List Resources.Obj) (msgs : List String),
    Resources.ListView_post cfg rq db msgs = Resources.ListView_get cfg rq db msgs :=
  fun _ _ _ _ => rfl

/-- C9: allow_delete always returns false, DeleteView.get and
DeleteView.post leave the table untouched and redirect to the object when
it exists, and delete_selected filters out every item, reports that no
object in the selection may be deleted and deletes nothing. -/
theorem C9_no_deletion_by_default :
    ∀ (cfg : Resources.ViewConfig) (object : Option Resources.Obj) (silent : Bool)
      (msgs : List String) (db : List Resources.Obj) (pk : Nat)
      (confirmInPost : Bool) (queryset : List Resources.Obj),
      (Resources.allow_delete cfg object silent msgs).1 = false
    ∧ (Resources.DeleteView_get cfg db pk msgs).2.1 = db
    ∧ (Resources.DeleteView_post cfg db pk msgs).2.1 = db
    ∧ (∀ o, db.find? (fun x => x.pk == pk) = some o →
        (Resources.DeleteView_get cfg db pk msgs).1 = Resources.HttpResp.redirectObj o.pk
      ∧ (Resources.DeleteView_post cfg db pk msgs).1 = Resources.HttpResp.redirectObj o.pk)
    ∧ Resources.delete_selected cfg confirmInPost queryset db msgs
        = (none, db, msgs ++ [Resources.none_allowed_msg]) := by
  intro cfg object silent msgs db pk confirmInPost queryset
  refine ⟨rfl, ?_, ?_, ?_, delete_selected_noop cfg confirmInPost queryset db msgs⟩
  · unfold Resources.DeleteView_get
    cases db.find? (fun x => x.pk == pk) <;> rfl
  · unfold Resources.DeleteView_post
    cases db.find? (fun x => x.pk == pk) <;> rfl
  · intro o ho
    unfold Resources.DeleteView_get Resources.DeleteView_post
    rw [ho]
    exact ⟨rfl, rfl⟩

/-- C9 witness: on the one-row table the delete views redirect to the
object and the batch delete action reports and deletes nothing. -/
theorem C9_no_deletion_by_default_witness :
    ([⟨1⟩] : List Resources.Obj).find? (fun x => x.pk == 1) = some ⟨1⟩
  ∧ ((Resources.DeleteView_get ⟨"person", "people"⟩ [⟨1⟩] 1 []).1
        = Resources.HttpResp.redirectObj 1
    ∧ (Resources.DeleteView_post ⟨"person", "people"⟩ [⟨1⟩] 1 []).1
        = Resources.HttpResp.redirectObj 1)
  ∧ Resources.delete_selected ⟨"person", "people"⟩ true [⟨1⟩] [⟨1⟩] []
      = (none, [⟨1⟩], [Resources.none_allowed_msg]) :=
  ⟨rfl,
   (C9_no_deletion_by_default ⟨"person", "people"⟩ none true [] [⟨1⟩] 1 true [⟨1⟩]).2.2.2.1
     ⟨1⟩ rfl,
   (C9_no_deletion_by_default ⟨"person", "people"⟩ none true [] [⟨1⟩] 1 true [⟨1⟩]).2.2.2.2⟩

/-- C8: a LogEntry carries its owning user, owning project, title,
message and source, the valid sources are exactly the four enumerated
channels whose display names are Online, Email, SMS and MMS, the reported
timestamp defaults to the creation time, the declared default ordering is
descending reported time, and applying it yields a permutation of the
entries sorted by descending reported time. -/
theorem C8_logentry_model :
    ∀ (now account project : Nat) (title message source : String)
      (r : Option Nat) (entries : List Logging.LogEntry),
      (Logging.LogEntry.create now account project title message source r).account = account
    ∧ (Logging.LogEntry.create now account project title message source r).project = project
    ∧ (Logging.LogEntry.create now account project title message source r).title = title
    ∧ (Logging.LogEntry.create now account project title message source r).message = message
    ∧ (Logging.LogEntry.create now account project title message source r).source = source
    ∧ (Logging.LogEntry.create now account project title message source none).reported = now
    ∧ (∀ s, Logging.valid_source s = true ↔ s ∈ ["WEB", "EML", "SMS", "MMS"])
    ∧ Logging.LOG_SOURCES.map Prod.snd = ["Online", "Email", "SMS", "MMS"]
    ∧ Logging.LogEntry.ordering = ["-reported"]
    ∧ List.Sorted Logging.byReportedDesc (Logging.apply_default_ordering entries)
    ∧ (Logging.apply_default_ordering entries).Perm entries := by
  intro now account project title message source r entries
  refine ⟨rfl, rfl, rfl, rfl, rfl, rfl, ?_, rfl, rfl, ?_, ?_⟩
  · intro s
    simp [Logging.valid_source, Logging.LOG_SOURCES]
  · exact List.sorted_insertionSort Logging.byReportedDesc entries
  · exact List.perm_insertionSort Logging.byReportedDesc entries

/-- C7: every tenant-scoped form constructor runs _process_fields, which
keeps each field name, leaves fields without a queryset attribute
entirely unchanged, and intersects the queryset of every other field with
the rows accessible under the request. -/
theorem C7_tenant_scoping :
    ∀ (fields : List MT.FormField) (request : MT.MTRequest),
      (MT.Form_init fields request).fields = MT._process_fields fields request
    ∧ (MT.ModelForm_init fields request).fields = MT._process_fields fields request
    ∧ (∀ form, (MT.SearchForm_post_init form request).fields
          = MT._process_fields form.fields request)
    ∧ (MT.BatchForm_init fields request).fields = MT._process_fields fields request
    ∧ List.Forall₂ (fun f g =>
          g.name = f.name
        ∧ (f.queryset = none → g = f)
        ∧ (∀ m qs, f.queryset = some (m, qs) →
            g.queryset = some (m, qs.filter (fun x => (request.forAccess m).contains x))))
        fields (MT._process_fields fields request) := by
  intro fields request
  refine ⟨rfl, rfl, fun _ => rfl, rfl, ?_⟩
  induction fields with
  | nil => exact List.Forall₂.nil
  | cons f t ih =>
    obtain ⟨nm, q⟩ := f
    cases q with
    | none =>
      refine List.Forall₂.cons ⟨rfl, fun _ => rfl, ?_⟩ ih
      intro m qs h
      exact absurd h (by simp)
    | some mq =>
      obtain ⟨m, qs⟩ := mq
      refine List.Forall₂.cons ⟨rfl, ?_, ?_⟩ ih
      · intro h
        exact absurd h (by simp)
      · intro m2 qs2 h
        injection h with h
        cases h
        rfl

/-- C7 witness: a two-field form, one field with a queryset attribute and
one without, constructed through the tenant-scoped Form. -/
theorem C7_tenant_scoping_witness :
    (MT.Form_init [⟨"person", some ("person", [1, 2, 3])⟩, ⟨"title", none⟩]
        ⟨fun _ => [2, 3, 4]⟩).fields
      = MT._process_fields [⟨"person", some ("person", [1, 2, 3])⟩, ⟨"title", none⟩]
          ⟨fun _ => [2, 3, 4]⟩
  ∧ MT._process_fields [⟨"person", some ("person", [1, 2, 3])⟩, ⟨"title", none⟩]
        ⟨fun _ => [2, 3, 4]⟩
      = [⟨"person", some ("person", [2, 3])⟩, ⟨"title", none⟩] :=
  ⟨(C7_tenant_scoping [⟨"person", some ("person", [1, 2, 3])⟩, ⟨"title", none⟩]
      ⟨fun _ => [2, 3, 4]⟩).1,
   by simp [MT._process_fields, MT.safe_queryset_and]⟩

/-- C1: a collection GET always carries an objects sequence and the full
meta map; offset defaults to 0 and limit to the configured page size of
20; next and previous are none exactly when the adjacent page would be
out of range; and a limit of 200 on a 100-row table returns all 100
objects with next = none, while the default limit of 20 returns 20
objects with total 100 and next at offset 20. -/
theorem C1_collection_pagination :
    ∀ (qs : List Nat) (offsetParam limitParam : Option Nat),
      Api.page_size = 20
    ∧ (Api.serialize_collection qs offsetParam limitParam).meta
        = some (Api.collection_meta qs offsetParam limitParam)
    ∧ (Api.collection_meta qs offsetParam limitParam).offset = offsetParam.getD 0
    ∧ (Api.collection_meta qs offsetParam limitParam).limit = limitParam.getD Api.page_size
    ∧ (Api.collection_meta qs offsetParam limitParam).total = qs.length
    ∧ ((Api.collection_meta qs offsetParam limitParam).next = none
        ↔ qs.length ≤ offsetParam.getD 0 + limitParam.getD Api.page_size)
    ∧ ((Api.collection_meta qs offsetParam limitParam).previous = none
        ↔ offsetParam.getD 0 = 0)
    ∧ (Api.serialize_collection qs none none).objects = qs.take 20
    ∧ (Api.serialize_collection (List.range 100) none (some 200)).objects.length = 100
    ∧ (Api.collection_meta (List.range 100) none (some 200)).next = none
    ∧ (Api.serialize_collection (List.range 100) none (some 20)).objects.length = 20
    ∧ (Api.collection_meta (List.range 100) none (some 20)).total = 100
    ∧ (Api.collection_meta (List.range 100) none (some 20)).next = some 20 := by
  intro qs offsetParam limitParam
  refine ⟨rfl, rfl, rfl, rfl, rfl, ?_, ?_, rfl, by decide, by decide, by decide,
    by decide, by decide⟩
  · constructor
    · intro hn
      by_contra hlt
      push_neg at hlt
      simp [Api.collection_meta, hlt] at hn
    · intro hle
      have hni : ¬ (offsetParam.getD 0 + limitParam.getD Api.page_size < qs.length) := by
        omega
      simp [Api.collection_meta, hni]
  · by_cases h : offsetParam.getD 0 = 0 <;> simp [Api.collection_meta, h]

/-- C2: a set lookup that finds fewer instances than keys requested fails
as a whole with 404 and the generic message; a successful set response
never carries pagination meta; a missing single key fails with 404 and
the model-specific message. -/
theorem C2_set_all_or_nothing :
    ∀ (db pks : List Nat) (modelName apiName resource : String) (pk : Nat),
      ((db.filter (fun x => decide (x ∈ pks))).length < pks.length →
        Api.set_lookup db pks = Except.error ⟨404, "Some objects do not exist."⟩)
    ∧ (∀ doc, Api.set_lookup db pks = Except.ok doc → doc.meta = none)
    ∧ (pk ∉ db →
        Api.detail_lookup modelName apiName resource db pk
          = Except.error ⟨404, Api.detail_msg modelName⟩)
    ∧ Api.detail_msg "Person" = "No Person matches the given query." := by
  intro db pks modelName apiName resource pk
  refine ⟨?_, ?_, ?_, rfl⟩
  · intro h
    simp [Api.set_lookup, h, Api.some_objects_msg]
  · intro doc hdoc
    simp only [Api.set_lookup] at hdoc
    split at hdoc
    · exact absurd hdoc (by simp)
    · injection hdoc with h
      subst h
      rfl
  · intro h
    simp [Api.detail_lookup, h]

/-- C2 witness: two keys requested, one found, fails with the generic
message; a complete set succeeds with no meta; the missing key 0 fails
with the Person message. -/
theorem C2_set_all_or_nothing_witness :
    (([1, 2] : List Nat).filter (fun x => decide (x ∈ ([1, 3] : List Nat)))).length
      < ([1, 3] : List Nat).length
  ∧ Api.set_lookup [1, 2] [1, 3] = Except.error ⟨404, "Some objects do not exist."⟩
  ∧ (Api.set_lookup [1, 2] [1, 2] = Except.ok ⟨[1, 2], none⟩
      ∧ (⟨[1, 2], none⟩ : Api.CollectionDoc).meta = none)
  ∧ ((0 : Nat) ∉ ([1, 2] : List Nat)
      ∧ Api.detail_lookup "Person" "v1" "person" [1, 2] 0
          = Except.error ⟨404, Api.detail_msg "Person"⟩) :=
  ⟨by decide,
   (C2_set_all_or_nothing [1, 2] [1, 3] "Person" "v1" "person" 0).1 (by decide),
   ⟨by rfl, (C2_set_all_or_nothing [1, 2] [1, 2] "Person" "v1" "person" 0).2.1
      ⟨[1, 2], none⟩ (by rfl)⟩,
   ⟨by decide, (C2_set_all_or_nothing [1, 2] [1, 3] "Person" "v1" "person" 0).2.2.1
      (by decide)⟩⟩

lemma foldl_max_init_le (db : List Nat) : ∀ init, init ≤ db.foldl max init := by
  induction db with
  | nil => intro init; exact Nat.le_refl init
  | cons a t ih =>
    intro init
    exact le_trans (Nat.le_max_left init a) (ih (max init a))

lemma mem_le_foldl_max (db : List Nat) : ∀ x ∈ db, x ≤ db.foldl max 0 := by
  suffices h : ∀ init, ∀ x ∈ db, x ≤ db.foldl max init from h 0
  induction db with
  | nil =>
    intro init x hx
    exact absurd hx (List.not_mem_nil x)
  | cons a t ih =>
    intro init x hx
    cases hx with
    | head => exact le_trans (Nat.le_max_right init a) (foldl_max_init_le t (max init a))
    | tail _ hx => exact ih (max init a) x hx

/-- C3: a POST whose body fails validation returns 400 with the error
summary and the form error map keying every missing required field with
the required message, persisting nothing; a POST whose body validates
persists exactly one new row (a fresh primary key) and returns 201 with
an empty body and a Location header equal to the new detail URI, whose
document carries the created primary key. -/
theorem C3_post_create :
    ∀ (spec : Api.FormSpec) (apiName resource : String) (db : List Nat)
      (body : List (String × String)),
      ((Api.validate spec body).isEmpty = false →
        Api.create_post spec apiName resource db body
          = (Api.PostResult.badRequest "Validation failed" (Api.validate spec body), db))
    ∧ (∀ f, f ∈ spec.required → body.lookup f = none →
        (f, [Api.required_msg]) ∈ Api.validate spec body)
    ∧ ((Api.validate spec body).isEmpty = true →
        Api.create_post spec apiName resource db body
          = (Api.PostResult.created ""
              (Api.detail_uri apiName resource (db.foldl max 0 + 1)),
             db ++ [db.foldl max 0 + 1])
        ∧ (db ++ [db.foldl max 0 + 1]).length = db.length + 1
        ∧ db.foldl max 0 + 1 ∉ db
        ∧ (Api.serialize_instance apiName resource (db.foldl max 0 + 1)).__pk__
            = db.foldl max 0 + 1)
    ∧ Api.required_msg = "This field is required." := by
  intro spec apiName resource db body
  refine ⟨?_, ?_, ?_, rfl⟩
  · intro h
    simp [Api.create_post, h, Api.validation_failed_msg]
  · intro f hf hl
    simp only [Api.validate, List.mem_map, List.mem_filter]
    exact ⟨f, ⟨hf, by simp [hl]⟩, rfl⟩
  · intro h
    refine ⟨by simp [Api.create_post, h], by simp, ?_, rfl⟩
    intro hmem
    have hle := mem_le_foldl_max db (db.foldl max 0 + 1) hmem
    omega

/-- C3 witness: an empty body on a form with two required fields is
rejected with both fields keyed; a complete body creates row 2 in the
one-row table with the Location of the new detail URI. -/
theorem C3_post_create_witness :
    (Api.validate ⟨["message", "sent_to"], ["message", "sent_to"]⟩ []).isEmpty = false
  ∧ Api.create_post ⟨["message", "sent_to"], ["message", "sent_to"]⟩ "v1" "message" [1] []
      = (Api.PostResult.badRequest "Validation failed"
          (Api.validate ⟨["message", "sent_to"], ["message", "sent_to"]⟩ []), [1])
  ∧ ("message", [Api.required_msg])
      ∈ Api.validate ⟨["message", "sent_to"], ["message", "sent_to"]⟩ []
  ∧ Api.create_post ⟨["message", "sent_to"], ["message", "sent_to"]⟩ "v1" "message" [1]
        [("message", "Blabla"), ("sent_to", "1")]
      = (Api.PostResult.created "" (Api.detail_uri "v1" "message" 2), [1, 2]) :=
  ⟨by rfl,
   (C3_post_create ⟨["message", "sent_to"], ["message", "sent_to"]⟩ "v1" "message" [1]
      []).1 (by rfl),
   (C3_post_create ⟨["message", "sent_to"], ["message", "sent_to"]⟩ "v1" "message" [1]
      []).2.1 "message" (by simp) (by rfl),
   ((C3_post_create ⟨["message", "sent_to"], ["message", "sent_to"]⟩ "v1" "message" [1]
      [("message", "Blabla"), ("sent_to", "1")]).2.2.1 (by rfl)).1⟩

/-- C4: an Accept header matching neither JSON nor XML is negotiated to
none and the request fails with 406; a body content type that is neither
form-encoded nor JSON is rejected with 415 whatever the body holds, in
particular application/octet-stream. -/
theorem C4_negotiation :
    ∀ (parseForm parseJson : String → List (String × String)) (spec : Api.FormSpec)
      (accept contentType body : String),
      (Api.negotiate accept = none ↔
        accept ≠ "application/json" ∧ accept ≠ "application/xml")
    ∧ (Api.negotiate accept = none →
        Api.post_status parseForm parseJson spec accept contentType body = 406)
    ∧ (contentType ∉ Api.supported_body_types →
        Api.decode_body parseForm parseJson contentType body = Except.error 415)
    ∧ Api.decode_body parseForm parseJson "application/octet-stream" body
        = Except.error 415
    ∧ Api.post_status parseForm parseJson spec "application/json"
        "application/octet-stream" body = 415 := by
  intro parseForm parseJson spec accept contentType body
  refine ⟨?_, ?_, ?_, by rfl, by rfl⟩
  · by_cases h1 : accept = "application/json" <;>
      by_cases h2 : accept = "application/xml" <;>
      simp [Api.negotiate, h1, h2]
  · intro h
    simp [Api.post_status, h]
  · intro h
    simp only [Api.supported_body_types, List.mem_cons, List.not_mem_nil, or_false] at h
    push_neg at h
    simp [Api.decode_body, h.1, h.2.1, h.2.2]

/-- C4 witness: text/html is not negotiable and yields 406; the
octet-stream content type is unsupported and decoding fails with 415. -/
theorem C4_negotiation_witness :
    Api.negotiate "text/html" = none
  ∧ Api.post_status (fun _ => []) (fun _ => []) ⟨[], []⟩ "text/html"
      "application/json" "" = 406
  ∧ "application/octet-stream" ∉ Api.supported_body_types
  ∧ Api.decode_body (fun _ => []) (fun _ => []) "application/octet-stream" "blabla"
      = Except.error 415 :=
  ⟨by rfl,
   (C4_negotiation (fun _ => []) (fun _ => []) ⟨[], []⟩ "text/html" "application/json"
      "").2.1 (by rfl),
   by decide,
   (C4_negotiation (fun _ => []) (fun _ => []) ⟨[], []⟩ "text/html"
      "application/octet-stream" "blabla").2.2.1 (by decide)⟩

/-- C5: OPTIONS on any endpoint returns 200 with the Allow header listing
the supported methods; any unsupported method returns 405 with the same
Allow header; a read-only collection allows exactly GET, HEAD and
OPTIONS. -/
theorem C5_method_dispatch :
    ∀ (e : Api.Endpoint) (m : Api.Method),
      Api.dispatch e Api.Method.OPTIONS = ⟨200, some (Api.allow_header e)⟩
    ∧ (Api.Method.OPTIONS ∈ e.allowed → m ∉ e.allowed →
        Api.dispatch e m = ⟨405, some (Api.allow_header e)⟩)
    ∧ Api.allow_header ⟨Api.readonly_methods⟩ = "GET, HEAD, OPTIONS" := by
  intro e m
  refine ⟨rfl, ?_, by rfl⟩
  intro hopt hm
  have hne : m ≠ Api.Method.OPTIONS := fun h => hm (h ▸ hopt)
  simp [Api.dispatch, hne, hm]

/-- C5 witness: POST on the read-only collection endpoint is rejected
with 405 and the GET, HEAD, OPTIONS Allow header. -/
theorem C5_method_dispatch_witness :
    Api.Method.OPTIONS ∈ (⟨Api.readonly_methods⟩ : Api.Endpoint).allowed
  ∧ Api.Method.POST ∉ (⟨Api.readonly_methods⟩ : Api.Endpoint).allowed
  ∧ Api.dispatch ⟨Api.readonly_methods⟩ Api.Method.POST
      = ⟨405, some (Api.allow_header ⟨Api.readonly_methods⟩)⟩ :=
  ⟨by decide, by decide,
   (C5_method_dispatch ⟨Api.readonly_methods⟩ Api.Method.POST).2.1 (by decide)
     (by decide)⟩

/-- C6: for a registered resource, reversing the list and detail actions
and resolving the produced URI through routing yields the same resource,
action and primary key; reversing an unregistered resource fails, as does
a detail reversal without a primary key; and the produced URIs render as
the canonical strings of the tests. -/
theorem C6_api_reverse_roundtrip :
    ∀ (registry : List String) (apiName resource : String) (pk : Nat)
      (action : Api.ApiAction) (kw : Api.ReverseKwargs),
      (resource ∈ registry →
        (Api.api_reverse registry apiName resource Api.ApiAction.list ⟨none, none⟩).bind
            (Api.resolve registry apiName)
          = some ⟨resource, Api.ApiAction.list, none⟩
        ∧ (Api.api_reverse registry apiName resource Api.ApiAction.detail
              ⟨some pk, none⟩).bind (Api.resolve registry apiName)
          = some ⟨resource, Api.ApiAction.detail, some pk⟩)
    ∧ (resource ∉ registry →
        Api.api_reverse registry apiName resource action kw = none)
    ∧ Api.api_reverse registry apiName resource Api.ApiAction.detail ⟨none, kw.pks⟩ = none
    ∧ (Api.api_reverse ["person"] "v1" "person" Api.ApiAction.list ⟨none, none⟩).map
        Api.uriOfSegs = some "/api/v1/person/"
    ∧ (Api.api_reverse ["person"] "v1" "person" Api.ApiAction.detail
        ⟨some 5, none⟩).map Api.uriOfSegs = some "/api/v1/person/5/"
    ∧ (Api.api_reverse ["person"] "v1" "person" Api.ApiAction.set
        ⟨none, some "2;3;4"⟩).map Api.uriOfSegs = some "/api/v1/person/2;3;4/" := by
  intro registry apiName resource pk action kw
  refine ⟨?_, ?_, ?_, by rfl, by rfl, by rfl⟩
  · intro hreg
    constructor
    · simp [Api.api_reverse, hreg, Api.resolve]
    · simp [Api.api_reverse, hreg, Api.resolve]
  · intro hreg
    cases action <;> simp [Api.api_reverse, hreg]
  · by_cases h : resource ∈ registry <;> simp [Api.api_reverse, h]

/-- C6 witness: person is registered and both actions round-trip; message
is not registered and its reversal fails. -/
theorem C6_api_reverse_roundtrip_witness :
    "person" ∈ ["person"]
  ∧ ((Api.api_reverse ["person"] "v1" "person" Api.ApiAction.list ⟨none, none⟩).bind
        (Api.resolve ["person"] "v1") = some ⟨"person", Api.ApiAction.list, none⟩
    ∧ (Api.api_reverse ["person"] "v1" "person" Api.ApiAction.detail ⟨some 5, none⟩).bind
        (Api.resolve ["person"] "v1") = some ⟨"person", Api.ApiAction.detail, some 5⟩)
  ∧ "message" ∉ ["person"]
  ∧ Api.api_reverse ["person"] "v1" "message" Api.ApiAction.list ⟨none, none⟩ = none :=
  ⟨by decide,
   (C6_api_reverse_roundtrip ["person"] "v1" "person" 5 Api.ApiAction.list
      ⟨none, none⟩).1 (by decide),
   by decide,
   (C6_api_reverse_roundtrip ["person"] "v1" "message" 5 Api.ApiAction.list
      ⟨none, none⟩).2.1 (by decide)⟩
